import Mathlib

/-!
Shallow embedding of `src/filehub_dash.py` (FileHub admin dashboard).

Timestamps are modelled as exact rationals (seconds); `datetime` subtraction
followed by `.total_seconds()` becomes subtraction in `ℚ`, and Python's
`int(...)` becomes truncation toward zero (`pyInt`).  Object keys are Lean
`String`s; character-level operations mirror Python `str.split(sep, 1)`.
The S3 client is modelled as an oracle: the listing it would return, and a
predicate saying which per-key deletes raise.
-/

namespace FileHub

/-- Python `int()` applied to an exact rational: truncation toward zero
(floor for nonnegative arguments, ceiling for negative ones). -/
def pyInt (q : ℚ) : ℤ := if q < 0 then ⌈q⌉ else ⌊q⌋

/-- One object of the S3 listing: `{"Key": ..., "Size": ..., "LastModified": ...}`
with `LastModified` already normalised to a UTC-naive timestamp in seconds. -/
structure ObjRecord where
  key : String
  size : ℚ
  lastModified : ℚ
deriving DecidableEq, Repr

/-- `(now - obj["LastModified"].replace(tzinfo=None)).total_seconds()`
(src lines 56-57, 82, 104, 141). -/
def ageSeconds (now : ℚ) (r : ObjRecord) : ℚ := now - r.lastModified

/-- The mutable outcome of one run of `delete_expired_files` (src lines 54-68):
the session deletion log, the keys whose delete raised (warned about), the keys
for which a delete call was issued to the client, and the keys whose delete
succeeded. -/
structure SweepState where
  log : List (String × ℚ)
  warnings : List String
  attempted : List String
  deleted : List String
deriving DecidableEq, Repr

/-- The body of the `for obj in response["Contents"]` loop of
`delete_expired_files` (src lines 55-68): if the object is older than 900
seconds, the log entry is appended first (line 63), then the delete call is
issued (line 66); an exception from the delete is caught and turned into a
warning (lines 67-68), after which the loop continues. -/
def sweepStep (now : ℚ) (deleteFails : String → Bool) (s : SweepState) (r : ObjRecord) :
    SweepState :=
  if 900 < ageSeconds now r then
    let log2 := s.log ++ [(r.key, now)]
    if deleteFails r.key then
      { s with log := log2, attempted := s.attempted ++ [r.key],
               warnings := s.warnings ++ [r.key] }
    else
      { s with log := log2, attempted := s.attempted ++ [r.key],
               deleted := s.deleted ++ [r.key] }
  else s

/-- The whole loop of `delete_expired_files` over the listing, started from a
pre-existing session deletion log `log0`. -/
def sweepRecords (now : ℚ) (deleteFails : String → Bool) (contents : List ObjRecord)
    (log0 : List (String × ℚ)) : SweepState :=
  contents.foldl (sweepStep now deleteFails) ⟨log0, [], [], []⟩

/-- The records of a listing selected for deletion: those strictly older than
900 seconds (src line 58). -/
def expiredOf (now : ℚ) (contents : List ObjRecord) : List ObjRecord :=
  contents.filter (fun r => decide (900 < ageSeconds now r))

/-- `get_cached_s3_listing` body (src lines 43-46): `response.get("Contents", [])`
on a raw S3 response that may lack the `Contents` key (empty bucket). -/
def getCachedListingContents (storeResp : Option (List ObjRecord)) : List ObjRecord :=
  storeResp.getD []

/-- The dict literal `{"Contents": get_cached_s3_listing(...)}` built by both
callers (src lines 50, 74), as an association list. -/
def mkResponse (listing : List ObjRecord) : List (String × List ObjRecord) :=
  [("Contents", listing)]

/-- Python `"Contents" in response` membership test on the modelled dict. -/
def hasContents (resp : List (String × List ObjRecord)) : Bool :=
  (resp.find? (fun p => p.1 == "Contents")).isSome

/-- Result of a full `delete_expired_files` call: either the early return taken
when `"Contents" not in response` (src lines 51-52) or a completed sweep. -/
inductive SweepOutcome where
  | guardReturn
  | swept (s : SweepState)
deriving DecidableEq, Repr

/-- `delete_expired_files` (src lines 48-68), with the store response and the
per-key delete failures supplied as oracles. -/
def deleteExpiredFiles (storeResp : Option (List ObjRecord)) (now : ℚ)
    (deleteFails : String → Bool) (log0 : List (String × ℚ)) : SweepOutcome :=
  let response := mkResponse (getCachedListingContents storeResp)
  if hasContents response then
    .swept (sweepRecords now deleteFails (getCachedListingContents storeResp) log0)
  else .guardReturn

/-- The per-row values computed by the UI (src lines 104-105 and 141-142):
`time_remaining = 900 - int(age)`, where `int` truncates toward zero. -/
def timeRemaining (now : ℚ) (r : ObjRecord) : ℤ := 900 - pyInt (ageSeconds now r)

/-- The predicate of the `active_files` list comprehension (src lines 80-83):
`(now - obj["LastModified"].replace(tzinfo=None)).total_seconds() < 900`. -/
def isActiveB (now : ℚ) (r : ObjRecord) : Bool := decide (ageSeconds now r < 900)

/-- `active_files` (src lines 80-83). -/
def activeFiles (recs : List ObjRecord) (now : ℚ) : List ObjRecord :=
  recs.filter (isActiveB now)

/-- Splits a character list at the first occurrence of (nonempty) `sep`,
returning the parts before and after it; `none` when `sep` does not occur.
`some` corresponds to Python `sep in s`, and `s.split(sep, 1)` is
`[a, b]` when this is `some (a, b)` and `[s]` when it is `none`. -/
def splitOnFirst (sep : List Char) : List Char → Option (List Char × List Char)
  | [] => none
  | c :: rest =>
    if sep.isPrefixOf (c :: rest) then some ([], (c :: rest).drop sep.length)
    else
      match splitOnFirst sep rest with
      | some (a, b) => some (c :: a, b)
      | none => none

/-- The key-masking block (src lines 106-114, duplicated verbatim at lines
149-157): guarded by `"/" in key and "__" in key`, split on the first `/`,
split the remainder on the first `__`, and if the token part has exactly 8
characters replace its first 6 by `XXXXXX`. -/
def maskChars (key : List Char) : List Char :=
  if ('/' ∈ key) && (splitOnFirst ['_', '_'] key).isSome then
    match splitOnFirst ['/'] key with
    | none => key
    | some (prefx, rest) =>
      match splitOnFirst ['_', '_'] rest with
      | none => key
      | some (token, filename) =>
        if token.length = 8 then
          prefx ++ '/' :: (['X', 'X', 'X', 'X', 'X', 'X'] ++ token.drop 6)
            ++ '_' :: '_' :: filename
        else key
  else key

/-- String-level wrapper of `maskChars`. -/
def maskKey (key : String) : String := String.mk (maskChars key.data)

/-- The colored/plain remaining-time labels rendered per row.  In the
"all files" section (src lines 142-147) `time_remaining = 900 - int(age)` and
the row shows `Expired ... sec ago` when it is negative, else the remaining
seconds. -/
inductive RowLabel where
  | expired (secsAgo : ℤ)
  | deletesIn (secs : ℤ)
deriving DecidableEq, Repr

/-- The label of one row of the "All Files in S3" section (src lines 142-147). -/
def allFilesLabel (now : ℚ) (r : ObjRecord) : RowLabel :=
  let tr := timeRemaining now r
  if tr < 0 then .expired (-tr) else .deletesIn tr

/-- The sort key of the "All Files in S3" section (src line 137):
`86400 - (now - x["LastModified"].replace(tzinfo=None)).total_seconds()`,
using the single `now` captured at src line 79. -/
def allKey (now : ℚ) (r : ObjRecord) : ℚ := 86400 - ageSeconds now r

/-- `all_objects_sorted` (src line 137): the full listing sorted ascending by
`allKey`. -/
def allSorted (recs : List ObjRecord) (now : ℚ) : List ObjRecord :=
  List.insertionSort (fun a b => allKey now a ≤ allKey now b) recs

/-- The decorate step of the active-view sort (src line 101).  Python's
`sorted(active_files, key=...)` evaluates the key function once per element in
list order; this key function calls `datetime.utcnow()` afresh, so the i-th
element is keyed with the i-th clock reading `clock i`, not with the `now`
captured at src line 79. -/
def activeDecorated (recs : List ObjRecord) (now : ℚ) (clock : ℕ → ℚ) :
    List (ℚ × ObjRecord) :=
  (activeFiles recs now).enum.map
    (fun p => (900 - (clock p.1 - p.2.lastModified), p.2))

/-- The active-view row order (src line 101): `active_files` sorted ascending
by the freshly-clocked key. -/
def activeSorted (recs : List ObjRecord) (now : ℚ) (clock : ℕ → ℚ) :
    List ObjRecord :=
  (List.insertionSort (fun a b => a.1 ≤ b.1) (activeDecorated recs now clock)).map
    (fun p => p.2)

/-- Outcome of `list_active_filehub_objects_ui` (src lines 70-97), reduced to
what the guard decides: either the `"No files currently stored."` early return
(src lines 75-77) or a rendered page with its four summary numbers
(active count, total count, active MB, total MB; src lines 85-97). -/
inductive UIOutcome where
  | noFilesMessage
  | rendered (activeCount totalCount : ℕ) (activeMB totalMB : ℚ)
deriving DecidableEq, Repr

/-- The guard and summary-count portion of `list_active_filehub_objects_ui`
(src lines 74-97). -/
def listActiveUI (storeResp : Option (List ObjRecord)) (now : ℚ) : UIOutcome :=
  let listing := getCachedListingContents storeResp
  let response := mkResponse listing
  if hasContents response then
    let actives := activeFiles listing now
    .rendered actives.length listing.length
      ((actives.map (fun r => r.size)).sum / (1024 * 1024))
      ((listing.map (fun r => r.size)).sum / (1024 * 1024))
  else .noFilesMessage

/-- The process-wide driver state touched by the module-level refresh gate
(src lines 30-41): `st.session_state["run_id"]` (modelled by the `now` value it
was minted from) and `st.session_state["last_s3_refresh_time"]`. -/
structure DriverState where
  runId : ℚ
  lastRefresh : ℚ
deriving DecidableEq, Repr

/-- Function names bound by `def` statements that have already executed when
the module-level refresh gate (src lines 38-41) runs.  Python executes a
module top to bottom; src lines 1 to 37 contain only imports and assignments,
while `get_cached_s3_listing`, `delete_expired_files` and
`list_active_filehub_objects_ui` are bound at lines 43, 48 and 70 — all after
the gate.  So no function name is bound yet at the gate. -/
def defsBoundBeforeGate : List String := []

/-- What one refresh tick's gate run produces: the driver state afterwards,
whether the sweep ran, and whether the tick aborted with a `NameError`. -/
structure TickOutcome where
  finalState : DriverState
  sweepRan : Bool
  nameError : Bool
deriving DecidableEq, Repr

/-- The module-level refresh gate (src lines 38-41).  When more than 300
seconds have elapsed, line 39 re-mints `run_id`, then line 40 evaluates the
name `delete_expired_files`; since that name is not yet bound at this point of
module execution, Python raises `NameError` and the tick aborts before the
sweep and before line 41 updates `last_s3_refresh_time`. -/
def refreshTick (st : DriverState) (now : ℚ) : TickOutcome :=
  if 300 < now - st.lastRefresh then
    if defsBoundBeforeGate.contains "delete_expired_files" then
      ⟨⟨now, now⟩, true, false⟩
    else ⟨⟨now, st.lastRefresh⟩, false, true⟩
  else ⟨st, false, false⟩

/-- The configuration values resolved at src lines 13-16. -/
structure AppConfig where
  accessKey : Option String
  secretKey : Option String
  bucketName : Option String
  region : Option String
deriving DecidableEq, Repr

/-- Src lines 13-16: each value is `st.secrets.get(k, fallback)` where the
fallback is `os.getenv(k)` — which for `S3_BUCKET_NAME` and `S3_REGION`
carries a non-empty default (`"your-bucket-name"`, `"us-east-1"`). -/
def resolveConfig (secrets env : String → Option String) : AppConfig where
  accessKey :=
    match secrets "AWS_ACCESS_KEY_ID" with
    | some v => some v
    | none => env "AWS_ACCESS_KEY_ID"
  secretKey :=
    match secrets "AWS_SECRET_ACCESS_KEY" with
    | some v => some v
    | none => env "AWS_SECRET_ACCESS_KEY"
  bucketName :=
    match secrets "S3_BUCKET_NAME" with
    | some v => some v
    | none => some ((env "S3_BUCKET_NAME").getD "your-bucket-name")
  region :=
    match secrets "S3_REGION" with
    | some v => some v
    | none => some ((env "S3_REGION").getD "us-east-1")

/-- Python truthiness of a configuration value: `not X` is true when `X` is
`None` or the empty string. -/
def falsy : Option String → Bool
  | none => true
  | some s => s == ""

/-- The startup check at src line 18. -/
def startupHalts (c : AppConfig) : Bool :=
  falsy c.accessKey || falsy c.secretKey || falsy c.bucketName

/-- Startup either halts at src line 20 (`st.stop()`) before the client is
built, or reaches src lines 22-27 and builds the `boto3` client from the
resolved configuration. -/
inductive StartupResult where
  | halted
  | clientCreated (c : AppConfig)
deriving DecidableEq, Repr

/-- Src lines 13-27: resolve configuration, halt if the check fires, else
create the store client. -/
def startup (secrets env : String → Option String) : StartupResult :=
  let c := resolveConfig secrets env
  if startupHalts c then .halted else .clientCreated c

/-- Modelled from the spec: the Listing Cache (§4.1) realised in the source by
the external `@st.cache_data(ttl=300)` decorator on `get_cached_s3_listing`
(src line 43), whose implementation is library code not in this repository.
An entry `(epoch, fetch time, value)` is served while the caller's epoch
matches and at most 300 seconds have elapsed since the fetch. -/
structure CacheState where
  entries : List (String × ℚ × List ObjRecord)
  storeCalls : ℕ
deriving DecidableEq, Repr

/-- Modelled from the spec: cache lookup — a memoized entry is returned only
for the same epoch within the 300-second time-to-live. -/
def cacheLookup (epoch : String) (now : ℚ) :
    List (String × ℚ × List ObjRecord) → Option (List ObjRecord)
  | [] => none
  | e :: rest =>
    if e.1 == epoch && decide (now - e.2.1 ≤ 300) then some e.2.2
    else cacheLookup epoch now rest

/-- Modelled from the spec: `get_listing(epoch)` — on a hit return the
memoized listing with no store call; on a miss perform one live store listing
(`store` is what the store would return) and memoize it. -/
def getListing (store : List ObjRecord) (epoch : String) (now : ℚ)
    (s : CacheState) : List ObjRecord × CacheState :=
  match cacheLookup epoch now s.entries with
  | some v => (v, s)
  | none => (store, ⟨(epoch, now, store) :: s.entries, s.storeCalls + 1⟩)

/-- The cache state before any listing call. -/
def emptyCache : CacheState := ⟨[], 0⟩

/-- Claim C4's remaining-seconds formula, following the spec's words: the age
is floored to an integer and `remaining = 900 - age`. -/
def specRemainingFloor (now : ℚ) (r : ObjRecord) : ℤ :=
  900 - ⌊ageSeconds now r⌋

/-- Claim C5's masking condition, following the spec's words: the key must
contain exactly one `/`; the rest of the shape is as in the source. -/
def specMaskExactlyOne (key : List Char) : List Char :=
  if key.count '/' = 1 then
    match splitOnFirst ['/'] key with
    | none => key
    | some (prefx, rest) =>
      match splitOnFirst ['_', '_'] rest with
      | none => key
      | some (token, filename) =>
        if token.length = 8 then
          prefx ++ '/' :: (['X', 'X', 'X', 'X', 'X', 'X'] ++ token.drop 6)
            ++ '_' :: '_' :: filename
        else key
  else key

/-- The amended masking condition: at least one `/`, splitting prefix from the
rest at the first one; otherwise as claim C5 states. -/
def specMaskAtLeastOne (key : List Char) : List Char :=
  if '/' ∈ key then
    match splitOnFirst ['/'] key with
    | none => key
    | some (prefx, rest) =>
      match splitOnFirst ['_', '_'] rest with
      | none => key
      | some (token, filename) =>
        if token.length = 8 then
          prefx ++ '/' :: (['X', 'X', 'X', 'X', 'X', 'X'] ++ token.drop 6)
            ++ '_' :: '_' :: filename
        else key
  else key

/-- Claim C7's row label, following the spec's words: the remaining-time label
computed against the 86400-second cosmetic horizon. -/
def specLabel86400 (now : ℚ) (r : ObjRecord) : RowLabel :=
  let tr := 86400 - pyInt (ageSeconds now r)
  if tr < 0 then .expired (-tr) else .deletesIn tr

/-- A configuration source holding only the two AWS keys — the bucket name is
absent from it. -/
def keysOnlySecrets : String → Option String := fun k =>
  if k = "AWS_ACCESS_KEY_ID" then some "id"
  else if k = "AWS_SECRET_ACCESS_KEY" then some "sk"
  else none

/-- An environment defining no variables at all. -/
def noEnv : String → Option String := fun _ => none

instance (now : ℚ) : IsTotal ObjRecord (fun a b => allKey now a ≤ allKey now b) :=
  ⟨fun a b => le_total _ _⟩

instance (now : ℚ) : IsTrans ObjRecord (fun a b => allKey now a ≤ allKey now b) :=
  ⟨fun _ _ _ hab hbc => le_trans hab hbc⟩

instance : IsTotal (ℚ × ObjRecord) (fun a b => a.1 ≤ b.1) :=
  ⟨fun a b => le_total _ _⟩

instance : IsTrans (ℚ × ObjRecord) (fun a b => a.1 ≤ b.1) :=
  ⟨fun _ _ _ hab hbc => le_trans hab hbc⟩

/-! ## Helper lemmas -/

/-- Unfolding the sweep loop: starting from any `SweepState`, the loop appends
one log entry and one delete attempt per record strictly older than 900
seconds, a warning for each such record whose delete raises, and a deletion
for each whose delete succeeds; records aged at most 900 seconds contribute
nothing. -/
theorem foldl_sweepStep (now : ℚ) (fails : String → Bool) :
    ∀ (contents : List ObjRecord) (s : SweepState),
      contents.foldl (sweepStep now fails) s =
        { log := s.log ++ (expiredOf now contents).map (fun r => (r.key, now)),
          warnings := s.warnings ++
            (((expiredOf now contents).filter (fun r => fails r.key)).map
              (fun r => r.key)),
          attempted := s.attempted ++ (expiredOf now contents).map (fun r => r.key),
          deleted := s.deleted ++
            (((expiredOf now contents).filter (fun r => !fails r.key)).map
              (fun r => r.key)) } := by
  intro contents
  induction contents with
  | nil => intro s; simp [expiredOf]
  | cons r rest ih =>
    intro s
    rw [List.foldl_cons, ih]
    by_cases h : 900 < ageSeconds now r
    · by_cases hf : fails r.key
      · simp [sweepStep, expiredOf, List.filter_cons, h, hf]
      · simp [sweepStep, expiredOf, List.filter_cons, h, hf]
    · simp [sweepStep, expiredOf, List.filter_cons, h]

/-- The four components of a completed sweep, read off from `foldl_sweepStep`. -/
theorem sweepRecords_eq (now : ℚ) (fails : String → Bool)
    (contents : List ObjRecord) (log0 : List (String × ℚ)) :
    sweepRecords now fails contents log0 =
      { log := log0 ++ (expiredOf now contents).map (fun r => (r.key, now)),
        warnings :=
          ((expiredOf now contents).filter (fun r => fails r.key)).map
            (fun r => r.key),
        attempted := (expiredOf now contents).map (fun r => r.key),
        deleted :=
          ((expiredOf now contents).filter (fun r => !fails r.key)).map
            (fun r => r.key) } := by
  rw [sweepRecords, foldl_sweepStep]
  simp

/-- `pyInt` agrees with the floor on nonnegative arguments. -/
theorem pyInt_of_nonneg {q : ℚ} (h : 0 ≤ q) : pyInt q = ⌊q⌋ := by
  rw [pyInt, if_neg (not_lt.mpr h)]

/-- `pyInt` of an integer is that integer. -/
theorem pyInt_intCast (z : ℤ) : pyInt (z : ℚ) = z := by
  rw [pyInt]
  split <;> simp

/-- A successful split decomposes the list around the separator. -/
theorem splitOnFirst_eq_append {sep : List Char} :
    ∀ {l a b : List Char}, splitOnFirst sep l = some (a, b) → l = a ++ sep ++ b := by
  intro l
  induction l with
  | nil => intro a b h; simp [splitOnFirst] at h
  | cons c rest ih =>
    intro a b h
    rw [splitOnFirst] at h
    by_cases hp : sep.isPrefixOf (c :: rest)
    · rw [if_pos hp, Option.some_inj] at h
      injection h with ha hb
      obtain ⟨t, ht⟩ := List.isPrefixOf_iff_prefix.mp hp
      subst ha
      subst hb
      rw [← ht]
      simp
    · rw [if_neg hp] at h
      cases hs : splitOnFirst sep rest with
      | none => rw [hs] at h; simp at h
      | some p =>
        obtain ⟨a2, b2⟩ := p
        rw [hs, Option.some_inj] at h
        injection h with ha hb
        subst ha
        subst hb
        simp [ih hs]

/-- A single-character separator that occurs in the list can always be split
on. -/
theorem splitOnFirst_isSome_of_mem {c : Char} :
    ∀ {l : List Char}, c ∈ l → (splitOnFirst [c] l).isSome := by
  intro l
  induction l with
  | nil => intro h; simp at h
  | cons d rest ih =>
    intro h
    rw [splitOnFirst]
    by_cases hp : List.isPrefixOf [c] (d :: rest)
    · rw [if_pos hp]; rfl
    · rw [if_neg hp]
      have hcd : c ≠ d := by
        intro e
        exact hp (List.isPrefixOf_iff_prefix.mpr ⟨rest, by simp [e]⟩)
      have hmem : c ∈ rest := by
        rcases List.mem_cons.mp h with h1 | h1
        · exact absurd h1 hcd
        · exact h1
      have hsome := ih hmem
      cases hs : splitOnFirst [c] rest with
      | none => rw [hs] at hsome; simp at hsome
      | some p => obtain ⟨_, _⟩ := p; simp

/-- If the separator occurs in a suffix, it occurs in the whole list. -/
theorem splitOnFirst_isSome_append {sep : List Char} (x : List Char)
    {y : List Char} (h : (splitOnFirst sep y).isSome) :
    (splitOnFirst sep (x ++ y)).isSome := by
  induction x with
  | nil => simpa
  | cons c xs ih =>
    rw [List.cons_append, splitOnFirst]
    by_cases hp : sep.isPrefixOf (c :: (xs ++ y))
    · rw [if_pos hp]; rfl
    · rw [if_neg hp]
      cases hs : splitOnFirst sep (xs ++ y) with
      | none => rw [hs] at ih; simp at ih
      | some p => obtain ⟨_, _⟩ := p; simp

/-- The source's mask agrees everywhere with the amended specification mask
(first-`/` split, i.e. "at least one slash"); the redundant `"__" in key`
guard of the source cannot change the result. -/
theorem maskChars_eq_specMaskAtLeastOne (key : List Char) :
    maskChars key = specMaskAtLeastOne key := by
  by_cases hs : '/' ∈ key
  · have hsplit := splitOnFirst_isSome_of_mem hs
    cases hp : splitOnFirst ['/'] key with
    | none => rw [hp] at hsplit; simp at hsplit
    | some pr =>
      obtain ⟨p, rest⟩ := pr
      by_cases h2 : (splitOnFirst ['_', '_'] key).isSome
      · simp [maskChars, specMaskAtLeastOne, hs, h2, hp]
      · have hkey := splitOnFirst_eq_append hp
        have hrest : splitOnFirst ['_', '_'] rest = none := by
          cases hr : splitOnFirst ['_', '_'] rest with
          | none => rfl
          | some q =>
            exfalso
            apply h2
            have : (splitOnFirst ['_', '_'] ((p ++ ['/']) ++ rest)).isSome :=
              splitOnFirst_isSome_append (p ++ ['/']) (by simp [hr])
            rw [hkey]
            simpa using this
        simp [maskChars, specMaskAtLeastOne, hs, h2, hp, hrest]
  · simp [maskChars, specMaskAtLeastOne, hs]

/-! ## Claim theorems -/

/-- C1 (code evaluated at the failing input): whenever more than 300 seconds
have elapsed since the last recorded sweep time, the refresh tick re-mints
`run_id` (src line 39) but then aborts with a `NameError`, because
`delete_expired_files` is referenced at src line 40 before the `def` at src
line 48 has executed; the sweep never runs and `last_s3_refresh_time` is never
updated — contrary to the claim that the sweeper runs to completion and the
timestamp advances. -/
theorem refreshTick_gate_name_error (st : DriverState) (now : ℚ)
    (h : 300 < now - st.lastRefresh) :
    (refreshTick st now).nameError = true ∧
    (refreshTick st now).sweepRan = false ∧
    (refreshTick st now).finalState.lastRefresh = st.lastRefresh ∧
    (refreshTick st now).finalState.runId = now := by
  simp [refreshTick, if_pos h, defsBoundBeforeGate]

/-- Witness for C1: a tick 301 seconds after the last sweep time. -/
theorem refreshTick_gate_name_error_witness :
    (300 : ℚ) < 301 - (⟨0, 0⟩ : DriverState).lastRefresh ∧
    ((refreshTick ⟨0, 0⟩ 301).nameError = true ∧
     (refreshTick ⟨0, 0⟩ 301).sweepRan = false ∧
     (refreshTick ⟨0, 0⟩ 301).finalState.lastRefresh =
       (⟨0, 0⟩ : DriverState).lastRefresh ∧
     (refreshTick ⟨0, 0⟩ 301).finalState.runId = 301) :=
  ⟨by norm_num, refreshTick_gate_name_error ⟨0, 0⟩ 301 (by norm_num)⟩

/-- C2 counterexample: with the object of age 901 failing to delete and the
object of age 5000 succeeding, the final deletion log holds two entries — the
log line is appended (src line 63) before the delete call (src line 66), so
the failed key is logged too; the claim's "exactly one entry" is false. -/
theorem sweep_log_counterexample :
    (sweepRecords 10000 (fun k => k == "age901")
        [⟨"age901", 1, 9099⟩, ⟨"age5000", 1, 5000⟩] []).log =
      [("age901", 10000), ("age5000", 10000)] ∧
    (sweepRecords 10000 (fun k => k == "age901")
        [⟨"age901", 1, 9099⟩, ⟨"age5000", 1, 5000⟩] []).deleted = ["age5000"] ∧
    ¬ (sweepRecords 10000 (fun k => k == "age901")
        [⟨"age901", 1, 9099⟩, ⟨"age5000", 1, 5000⟩] []).log.length = 1 := by
  refine ⟨?_, ?_, ?_⟩ <;> (norm_num [sweepRecords, sweepStep, ageSeconds]; decide)

/-- C2 (amended): a per-object delete failure is caught, reported as a
warning, and does not abort the sweep — every record strictly older than 900
seconds is still processed after a failure; but the deletion-log entry is
appended before the delete is attempted, so every selected record is logged,
whether or not its delete succeeds, while only the successful keys are
actually deleted. -/
theorem sweep_partial_failure (contents : List ObjRecord) (now : ℚ)
    (fails : String → Bool) (log0 : List (String × ℚ)) :
    (sweepRecords now fails contents log0).log =
      log0 ++ (expiredOf now contents).map (fun r => (r.key, now)) ∧
    (sweepRecords now fails contents log0).warnings =
      ((expiredOf now contents).filter (fun r => fails r.key)).map
        (fun r => r.key) ∧
    (sweepRecords now fails contents log0).deleted =
      ((expiredOf now contents).filter (fun r => !fails r.key)).map
        (fun r => r.key) := by
  rw [sweepRecords_eq]
  exact ⟨rfl, rfl, rfl⟩

/-- C3: the sweep issues a delete for exactly the records whose age is
strictly greater than 900 seconds; concretely, for ages
[100, 899, 900, 901, 5000] only the keys of ages 901 and 5000 are deleted —
age 900 is on the boundary and is not swept. -/
theorem sweep_selects_age_over_900 (contents : List ObjRecord) (now : ℚ)
    (fails : String → Bool) (log0 : List (String × ℚ)) :
    (sweepRecords now fails contents log0).attempted =
      (contents.filter (fun r => decide (900 < ageSeconds now r))).map
        (fun r => r.key) ∧
    (sweepRecords 10000 (fun _ => false)
        [⟨"k100", 1, 9900⟩, ⟨"k899", 1, 9101⟩, ⟨"k900", 1, 9100⟩,
         ⟨"k901", 1, 9099⟩, ⟨"k5000", 1, 5000⟩] []).attempted =
      ["k901", "k5000"] := by
  constructor
  · rw [sweepRecords_eq, expiredOf]
  · norm_num [sweepRecords, sweepStep, ageSeconds]

/-- C4 counterexample: for a record last modified half a second after `now`
(age −1/2 s), the code computes `900 - int(-0.5) = 900` — Python `int()`
truncates toward zero — while the claim's floored age gives
`900 - (-1) = 901`; so "floored to an integer" is false as a universal
statement. -/
theorem timeRemaining_counterexample :
    timeRemaining 0 ⟨"future", 1, 1 / 2⟩ = 900 ∧
    specRemainingFloor 0 ⟨"future", 1, 1 / 2⟩ = 901 ∧
    ¬ timeRemaining 0 ⟨"future", 1, 1 / 2⟩ =
        specRemainingFloor 0 ⟨"future", 1, 1 / 2⟩ := by
  have h1 : timeRemaining 0 ⟨"future", 1, 1 / 2⟩ = 900 := by
    norm_num [timeRemaining, pyInt, ageSeconds]
  have h2 : specRemainingFloor 0 ⟨"future", 1, 1 / 2⟩ = 901 := by
    norm_num [specRemainingFloor, ageSeconds]
  exact ⟨h1, h2, by rw [h1, h2]; decide⟩

/-- C4 (amended): whenever `last_modified ≤ now` the truncation coincides with
the floor, so `remaining = 900 - ⌊age⌋`; `is_active` tests the exact age
against 900, which is equivalent to testing the floored age; a record with age
exactly 900 has remaining 0 and is inactive. -/
theorem classify_remaining_and_active (r : ObjRecord) (now : ℚ)
    (h : r.lastModified ≤ now) :
    timeRemaining now r = 900 - ⌊ageSeconds now r⌋ ∧
    isActiveB now r = decide (⌊ageSeconds now r⌋ < 900) ∧
    (ageSeconds now r = 900 → timeRemaining now r = 0 ∧
      isActiveB now r = false) := by
  have hage : 0 ≤ ageSeconds now r := by
    rw [ageSeconds]
    exact sub_nonneg.mpr h
  refine ⟨?_, ?_, fun h900 => ⟨?_, ?_⟩⟩
  · rw [timeRemaining, pyInt_of_nonneg hage]
  · rw [isActiveB]
    refine decide_eq_decide.mpr ?_
    rw [Int.floor_lt]
    norm_num
  · rw [timeRemaining, h900]
    norm_num [pyInt]
  · rw [isActiveB, h900]
    norm_num

/-- Witness for C4: a record of age exactly 900 seconds. -/
theorem classify_remaining_and_active_witness :
    (ObjRecord.mk "w" 1 0).lastModified ≤ (900 : ℚ) ∧
    (timeRemaining 900 ⟨"w", 1, 0⟩ = 0 ∧ isActiveB 900 ⟨"w", 1, 0⟩ = false) :=
  ⟨by norm_num,
   (classify_remaining_and_active ⟨"w", 1, 0⟩ 900 (by norm_num)).2.2
     (by norm_num [ageSeconds])⟩

/-- C5 counterexample: the source masks on the FIRST slash of a key containing
more than one slash — `"a/bcd/efgh__x"` has two slashes, its token part
`bcd/efgh` (between the first `/` and the first `__`) has length 8, and the
code masks it to `"a/XXXXXXgh__x"`, while the claim ("exactly one /") says it
is returned unchanged. -/
theorem maskKey_counterexample :
    maskKey "a/bcd/efgh__x" = "a/XXXXXXgh__x" ∧
    ("a/bcd/efgh__x".data.count '/') = 2 ∧
    ¬ maskChars ("a/bcd/efgh__x".data) =
        specMaskExactlyOne ("a/bcd/efgh__x".data) := by
  refine ⟨by decide, by decide, by decide⟩

/-- C5 (amended): masking is a pure total function; a key is rewritten to
`<prefix>/XXXXXX<last-2-of-token>__<filename>` exactly when it contains at
least one `/` — the prefix being everything before the first one — and the
remainder splits on the first `__` into two parts with a token of length
exactly 8; every other key is returned unchanged.  The spec's three examples
behave as stated. -/
theorem maskKey_matches_amended_spec :
    (∀ key : List Char, maskChars key = specMaskAtLeastOne key) ∧
    maskKey "docs/AbCdEfGh__report.pdf" = "docs/XXXXXXGh__report.pdf" ∧
    maskKey "weird_key_no_slash" = "weird_key_no_slash" ∧
    maskKey "a/short7__f.txt" = "a/short7__f.txt" :=
  ⟨maskChars_eq_specMaskAtLeastOne, by decide, by decide, by decide⟩

/-- C6 (spec-modelled cache): starting from an empty cache, the first call for
epoch `e` performs the single store call; a second call with the same epoch
within 300 seconds returns the memoized listing with no further store call;
and a call with a previously unseen epoch in the same window performs a fresh
store call. -/
theorem cache_one_call_per_epoch (store : List ObjRecord) (e e2 : String)
    (t1 t2 : ℚ) (h1 : t1 ≤ t2) (h2 : t2 - t1 ≤ 300) (hne : e2 ≠ e) :
    (getListing store e t1 emptyCache).2.storeCalls = 1 ∧
    (getListing store e t2 (getListing store e t1 emptyCache).2).2.storeCalls = 1 ∧
    (getListing store e t2 (getListing store e t1 emptyCache).2).1 = store ∧
    (getListing store e2 t2 (getListing store e t1 emptyCache).2).2.storeCalls = 2 := by
  have hs1 : (getListing store e t1 emptyCache).2 =
      ⟨[(e, t1, store)], 1⟩ := by
    simp [getListing, emptyCache, cacheLookup]
  have hhit : cacheLookup e t2 [(e, t1, store)] = some store := by
    simp [cacheLookup, h2]
  have hmiss : cacheLookup e2 t2 [(e, t1, store)] = none := by
    simp [cacheLookup, Ne.symm hne]
  rw [hs1]
  exact ⟨rfl, by simp [getListing, hhit], by simp [getListing, hhit],
    by simp [getListing, hmiss]⟩

/-- Witness for C6: epochs "a" then "b", calls at times 0 and 100. -/
theorem cache_one_call_per_epoch_witness :
    ((0 : ℚ) ≤ 100 ∧ (100 : ℚ) - 0 ≤ 300 ∧ "b" ≠ "a") ∧
    ((getListing [] "a" 0 emptyCache).2.storeCalls = 1 ∧
     (getListing [] "a" 100 (getListing [] "a" 0 emptyCache).2).2.storeCalls = 1 ∧
     (getListing [] "a" 100 (getListing [] "a" 0 emptyCache).2).1 = [] ∧
     (getListing [] "b" 100 (getListing [] "a" 0 emptyCache).2).2.storeCalls = 2) :=
  ⟨⟨by norm_num, by norm_num, by decide⟩,
   cache_one_call_per_epoch [] "a" "b" 0 100 (by norm_num) (by norm_num)
     (by decide)⟩

/-- C7 counterexample: in the "all files" view a record of age 100 seconds is
labeled `Deletes in 800 seconds` — `900 - int(age)` at src line 142 — not the
86300 seconds the claim's 86400-second horizon would give. -/
theorem allFilesLabel_counterexample :
    allFilesLabel 100 ⟨"x", 1, 0⟩ = .deletesIn 800 ∧
    specLabel86400 100 ⟨"x", 1, 0⟩ = .deletesIn 86300 ∧
    ¬ allFilesLabel 100 ⟨"x", 1, 0⟩ = specLabel86400 100 ⟨"x", 1, 0⟩ := by
  have hl : allFilesLabel 100 ⟨"x", 1, 0⟩ = .deletesIn 800 := by
    norm_num [allFilesLabel, timeRemaining, pyInt, ageSeconds]
  have hs : specLabel86400 100 ⟨"x", 1, 0⟩ = .deletesIn 86300 := by
    norm_num [specLabel86400, pyInt, ageSeconds]
  exact ⟨hl, hs, by rw [hl, hs]; decide⟩

/-- C7 (amended): the "all files" view is ordered ascending by the time
remaining to the 86400-second cosmetic horizon (`86400 - age`); but each row's
remaining-time label is computed against the 900-second active TTL — a row is
labeled `Expired` exactly when its truncated age exceeds 900 — and the 86400
horizon triggers no deletion: the sweep's deletes are exactly the records of
age strictly over 900. -/
theorem allView_sort_and_labels (recs : List ObjRecord) (now : ℚ) :
    List.Sorted (fun a b => allKey now a ≤ allKey now b) (allSorted recs now) ∧
    (allSorted recs now).Perm recs ∧
    (∀ r : ObjRecord,
      (∃ s, allFilesLabel now r = .expired s) ↔ 900 < pyInt (ageSeconds now r)) ∧
    (∀ (fails : String → Bool) (log0 : List (String × ℚ)),
      (sweepRecords now fails recs log0).attempted =
        (recs.filter (fun r => decide (900 < ageSeconds now r))).map
          (fun r => r.key)) := by
  refine ⟨List.sorted_insertionSort _ _, List.perm_insertionSort _ _, ?_, ?_⟩
  · intro r
    rw [allFilesLabel, timeRemaining]
    by_cases h : (900 : ℤ) - pyInt (ageSeconds now r) < 0
    · simp only [h, if_pos]
      constructor
      · intro _; omega
      · intro _; exact ⟨_, rfl⟩
    · simp only [h, if_neg, not_false_iff]
      constructor
      · rintro ⟨s, hs⟩
        simp at hs
      · intro hgt; omega
  · intro fails log0
    rw [sweepRecords_eq, expiredOf]

/-- C8 (code evaluated at the failing input): with both AWS keys configured
but `S3_BUCKET_NAME` absent from secrets and environment alike, startup does
NOT halt — `os.getenv("S3_BUCKET_NAME", "your-bucket-name")` (src line 15)
substitutes a non-empty placeholder, so the check at src line 18 (whose own
error message demands the bucket name) cannot fire, and the store client is
built with the placeholder bucket.  With the AWS keys missing the check does
fire and no client is created. -/
theorem startup_missing_bucket_no_halt :
    keysOnlySecrets "S3_BUCKET_NAME" = none ∧
    noEnv "S3_BUCKET_NAME" = none ∧
    startup keysOnlySecrets noEnv =
      .clientCreated ⟨some "id", some "sk", some "your-bucket-name",
        some "us-east-1"⟩ ∧
    startup noEnv noEnv = .halted :=
  ⟨by decide, by decide, by decide, by decide⟩

/-- C9 counterexample: with the same two records and the same `now = 10`, a
sort whose per-element clock reads all return 10 yields the order [A, B],
while one whose reads advance by 2 seconds per element yields [B, A] — the
active-view order depends on the `datetime.utcnow()` calls made inside the
sort key (src line 101), so it is not a function of the records and `now`
alone. -/
theorem activeSorted_clock_counterexample :
    activeSorted [⟨"A", 1, 0⟩, ⟨"B", 1, 1⟩] 10 (fun _ => 10) =
      [⟨"A", 1, 0⟩, ⟨"B", 1, 1⟩] ∧
    activeSorted [⟨"A", 1, 0⟩, ⟨"B", 1, 1⟩] 10 (fun i => 10 + 2 * (i : ℚ)) =
      [⟨"B", 1, 1⟩, ⟨"A", 1, 0⟩] ∧
    ¬ activeSorted [⟨"A", 1, 0⟩, ⟨"B", 1, 1⟩] 10 (fun _ => 10) =
        activeSorted [⟨"A", 1, 0⟩, ⟨"B", 1, 1⟩] 10 (fun i => 10 + 2 * (i : ℚ)) := by
  have hA : activeSorted [⟨"A", 1, 0⟩, ⟨"B", 1, 1⟩] 10 (fun _ => 10) =
      [⟨"A", 1, 0⟩, ⟨"B", 1, 1⟩] := by
    norm_num [activeSorted, activeDecorated, activeFiles, isActiveB, ageSeconds,
      List.insertionSort, List.orderedInsert, List.enum, List.enumFrom,
      List.filter]
  have hB : activeSorted [⟨"A", 1, 0⟩, ⟨"B", 1, 1⟩] 10 (fun i => 10 + 2 * (i : ℚ)) =
      [⟨"B", 1, 1⟩, ⟨"A", 1, 0⟩] := by
    norm_num [activeSorted, activeDecorated, activeFiles, isActiveB, ageSeconds,
      List.insertionSort, List.orderedInsert, List.enum, List.enumFrom,
      List.filter]
  refine ⟨hA, hB, ?_⟩
  rw [hA, hB]
  intro h
  have := List.head_eq_of_cons_eq h
  simp [ObjRecord.mk.injEq] at this

/-- C9 (amended): classification and the view are functions of the records,
`now`, and the clock readings taken by the sort; when every reading equals
`now` the result is independent of the clock, is a permutation of the active
files, and is ordered by ascending remaining time (soonest-to-expire first). -/
theorem activeView_deterministic_given_clock (recs : List ObjRecord) (now : ℚ)
    (clock : ℕ → ℚ) (hc : ∀ i, clock i = now) :
    activeSorted recs now clock = activeSorted recs now (fun _ => now) ∧
    List.Sorted (fun a b => (900 : ℚ) - ageSeconds now a ≤ 900 - ageSeconds now b)
      (activeSorted recs now clock) ∧
    (activeSorted recs now clock).Perm (activeFiles recs now) := by
  refine ⟨?_, ?_, ?_⟩
  · rw [activeSorted, activeSorted]
    have hdec : activeDecorated recs now clock =
        activeDecorated recs now (fun _ => now) := by
      simp [activeDecorated, hc]
    rw [hdec]
  · rw [activeSorted, List.Sorted, List.pairwise_map]
    have hsorted := List.sorted_insertionSort
      (fun a b : ℚ × ObjRecord => a.1 ≤ b.1) (activeDecorated recs now clock)
    have hmem : ∀ p ∈ List.insertionSort
        (fun a b : ℚ × ObjRecord => a.1 ≤ b.1) (activeDecorated recs now clock),
        p.1 = 900 - ageSeconds now p.2 := by
      intro p hp
      have hp2 : p ∈ activeDecorated recs now clock :=
        ((List.perm_insertionSort _ _).mem_iff).mp hp
      rw [activeDecorated] at hp2
      obtain ⟨q, _, rfl⟩ := List.mem_map.mp hp2
      simp [hc, ageSeconds]
    exact List.Pairwise.imp_of_mem
      (fun ha hb hr => by
        rw [← hmem _ ha, ← hmem _ hb]
        exact hr) hsorted
  · rw [activeSorted]
    have hperm := (List.perm_insertionSort
      (fun a b : ℚ × ObjRecord => a.1 ≤ b.1) (activeDecorated recs now clock)).map
      (fun p : ℚ × ObjRecord => p.2)
    have hsnd : (activeDecorated recs now clock).map (fun p => p.2) =
        activeFiles recs now := by
      rw [activeDecorated, List.map_map]
      have : ((fun p : ℚ × ObjRecord => p.2) ∘
          (fun p : ℕ × ObjRecord =>
            ((900 : ℚ) - (clock p.1 - p.2.lastModified), p.2))) =
          Prod.snd := by
        funext p
        rfl
      rw [this, List.enum_map_snd]
    rw [← hsnd]
    exact hperm

/-- Witness for C9: a single record with the constant clock. -/
theorem activeView_deterministic_given_clock_witness :
    (∀ i : ℕ, (fun _ : ℕ => (5 : ℚ)) i = 5) ∧
    (activeSorted [⟨"A", 1, 0⟩] 5 (fun _ => 5) =
       activeSorted [⟨"A", 1, 0⟩] 5 (fun _ => 5) ∧
     List.Sorted
       (fun a b => (900 : ℚ) - ageSeconds 5 a ≤ 900 - ageSeconds 5 b)
       (activeSorted [⟨"A", 1, 0⟩] 5 (fun _ => 5)) ∧
     (activeSorted [⟨"A", 1, 0⟩] 5 (fun _ => 5)).Perm
       (activeFiles [⟨"A", 1, 0⟩] 5)) :=
  ⟨fun _ => rfl,
   activeView_deterministic_given_clock [⟨"A", 1, 0⟩] 5 (fun _ => 5)
     (fun _ => rfl)⟩

/-- C10: the `"Contents" not in response` guards are unreachable — both
callers wrap the (always list-valued) cached listing as a one-key dict, so the
sweeper never takes its early return and the page never shows the
"No files currently stored" message; for an empty bucket (a store response
with no Contents key) the sweep is a no-op leaving the log untouched and the
page renders zero counts. -/
theorem contents_guard_unreachable (storeResp : Option (List ObjRecord))
    (now : ℚ) (fails : String → Bool) (log0 : List (String × ℚ)) :
    hasContents (mkResponse (getCachedListingContents storeResp)) = true ∧
    deleteExpiredFiles storeResp now fails log0 =
      .swept (sweepRecords now fails (getCachedListingContents storeResp) log0) ∧
    (∃ a t am tm, listActiveUI storeResp now = .rendered a t am tm) ∧
    deleteExpiredFiles none now fails log0 = .swept ⟨log0, [], [], []⟩ ∧
    listActiveUI none now = .rendered 0 0 0 0 := by
  have hc : ∀ L : List ObjRecord, hasContents (mkResponse L) = true := by
    intro L
    rfl
  refine ⟨hc _, ?_, ?_, ?_, ?_⟩
  · rw [deleteExpiredFiles]
    simp [hc]
  · rw [listActiveUI]
    simp only [hc, if_pos]
    exact ⟨_, _, _, _, rfl⟩
  · rw [deleteExpiredFiles]
    simp [hc, getCachedListingContents, sweepRecords]
  · rw [listActiveUI]
    simp [hc, getCachedListingContents, activeFiles]

end FileHub
